import Mathlib

/-
Verification of the smart-irrigation ml-service, a shallow embedding of
src/ml-service/src/feature_engineering.py and src/ml-service/src/predict.py.

Modelling conventions:
- a pandas cell is `Option ℚ`: `some q` a number, `none` a NaN;
- a DataFrame is its numeric (timestamp, in minutes) index together with the
  ordered list of named columns, each a list of cells aligned to the index;
- Python strings are compared and searched through their character lists;
- interactive prompting (`prompt_float`) is an oracle `String → ℚ`;
- the external stores and the model handle are oracles whose outcomes are
  `Except` values.
-/

namespace Irrigation

/-- A pandas cell: a rational number or NaN. -/
abbrev Val := Option ℚ

/-! ### Python string primitives -/

/-- Python `s.startswith(p)`, on the character lists. -/
def pyStartsWith (s p : String) : Bool := p.data.isPrefixOf s.data

/-- Containment of a contiguous character run (helper for `pyIn`). -/
def charsIn : List Char → List Char → Bool
  | p, [] => p.isEmpty
  | p, a :: as => p.isPrefixOf (a :: as) || charsIn p as

/-- Python `sub in s` for strings. -/
def pyIn (sub s : String) : Bool := charsIn sub.data s.data

/-- Python `s.lower()` (the feature names handled are ASCII). -/
def pyLower (s : String) : String := ⟨s.data.map Char.toLower⟩

/-! ### Data model: observations, resampled series, DataFrames -/

/-- One raw sensor observation: timestamp in minutes since the epoch and the
three sensor cells, each possibly missing. -/
structure Obs where
  t : ℕ
  moisture : Val
  temperature : Val
  humidity : Val

/-- The resampled series returned by `resample_and_aggregate`: a DataFrame
with the fixed columns moisture, temperature, humidity, kept as typed
fields.  The index holds each interval's start minute. -/
structure AggDF where
  index : List ℕ
  moisture : List Val
  temperature : List Val
  humidity : List Val

/-- Well-formedness of a resampled series: columns aligned to the index and
index labels pairwise distinct (resampling yields strictly increasing
interval starts). -/
def AggDF.Wf (a : AggDF) : Prop :=
  a.moisture.length = a.index.length ∧ a.temperature.length = a.index.length ∧
    a.humidity.length = a.index.length ∧ a.index.Nodup

/-- A generic DataFrame: numeric index plus ordered named columns. -/
structure DataFrame where
  index : List ℕ
  cols : List (String × List Val)

/-! ### resample_and_aggregate -/

/-- Mean of the non-missing cells (pandas mean, skipna); NaN when there is
none. -/
def meanOpt (xs : List Val) : Val :=
  let v := xs.filterMap id
  if v.length = 0 then none else some (v.sum / (v.length : ℚ))

/-- The interval buckets spanned by the observations: every bucket number
from the smallest to the largest hit by an observation (pandas resample
produces the full range).  Bucket of an observation = `t / interval`. -/
def bucketList (obs : List Obs) (interval : ℕ) : List ℕ :=
  match obs with
  | [] => []
  | o :: rest =>
    let bs := (o :: rest).map (fun x => x.t / interval)
    let lo := bs.foldl min (o.t / interval)
    let hi := bs.foldl max (o.t / interval)
    (List.range (hi - lo + 1)).map (· + lo)

/-- The cells (through `f`) of the observations falling in bucket `b`. -/
def bucketCells (obs : List Obs) (interval b : ℕ) (f : Obs → Val) : List Val :=
  (obs.filter (fun o => o.t / interval == b)).map f

/-- Per-bucket means of one sensor column (`.resample(rule).mean()`). -/
def bucketMeans (obs : List Obs) (interval : ℕ) (f : Obs → Val) : List Val :=
  (bucketList obs interval).map (fun b => meanOpt (bucketCells obs interval b f))

/-- The loop of pandas `ffill(limit=...)`: `last` is the last non-missing
value seen, `cnt` the number of consecutive missing cells since it; a
missing cell is filled only while `cnt < limit`. -/
def ffillAux (limit : ℕ) : Val → ℕ → List Val → List Val
  | _, _, [] => []
  | last, cnt, none :: rest =>
    match last with
    | none => none :: ffillAux limit none (cnt + 1) rest
    | some v =>
      if cnt < limit then some v :: ffillAux limit (some v) (cnt + 1) rest
      else none :: ffillAux limit (some v) (cnt + 1) rest
  | _, _, some v :: rest => some v :: ffillAux limit (some v) 0 rest

/-- pandas `ffill(limit=limit)` on one column. -/
def ffillLimit (limit : ℕ) (xs : List Val) : List Val := ffillAux limit none 0 xs

/-- Embedding of `resample_and_aggregate` (feature_engineering.py): bucket
the observations into `interval`-minute intervals, aggregate each of the
three sensor columns by its per-interval mean, then forward-fill each
column with `limit=2`. -/
def resample_and_aggregate (obs : List Obs) (interval : ℕ) : AggDF :=
  { index := (bucketList obs interval).map (· * interval),
    moisture := ffillLimit 2 (bucketMeans obs interval Obs.moisture),
    temperature := ffillLimit 2 (bucketMeans obs interval Obs.temperature),
    humidity := ffillLimit 2 (bucketMeans obs interval Obs.humidity) }

/-! ### create_lag_features -/

/-- pandas positional `shift(lag)` for `lag ≥ 0`: cell `i` becomes the cell
previously at `i - lag`, the first `lag` cells NaN; length preserved. -/
def shiftPos (lag : ℕ) (xs : List Val) : List Val :=
  (List.replicate lag none ++ xs).take xs.length

/-- pandas positional `shift(-h)`: cell `i` becomes the cell previously at
`i + h`, the last cells NaN; length preserved. -/
def shiftNeg (h : ℕ) (xs : List Val) : List Val :=
  xs.drop h ++ List.replicate (min h xs.length) none

/-- Cell-wise subtraction, NaN-propagating. -/
def subVal : Val → Val → Val
  | some a, some b => some (a - b)
  | _, _ => none

/-- pandas `rolling(window=3, min_periods=1).mean()`: at each position the
mean of the non-missing cells among the trailing window of width 3, NaN
when the window holds no value. -/
def rollingMean3 (xs : List Val) : List Val :=
  (List.range xs.length).map (fun i => meanOpt ((xs.take (i + 1)).drop (i + 1 - 3)))

/-- DatetimeIndex `.hour` of a timestamp in minutes. -/
def hourOf (t : ℕ) : ℕ := t / 60 % 24

/-- DatetimeIndex `.dayofweek` (Monday = 0); the epoch day is a Thursday. -/
def dayofweekOf (t : ℕ) : ℕ := (t / 1440 + 3) % 7

/-- Gregorian leap-year test. -/
def isLeap (y : ℕ) : Bool := (y % 4 == 0 && y % 100 != 0) || y % 400 == 0

/-- Number of days of year `y`. -/
def daysInYear (y : ℕ) : ℕ := if isLeap y then 366 else 365

/-- Fuel-driven scan over whole years: the day offset within its year of
epoch day `d` (the fuel passed by `dayofyearOf` always suffices, each year
consuming at least 365 days). -/
def doyAux : ℕ → ℕ → ℕ → ℕ
  | 0, _, d => d
  | fuel + 1, y, d => if daysInYear y ≤ d then doyAux fuel (y + 1) (d - daysInYear y) else d

/-- DatetimeIndex `.dayofyear` (1-based) of a timestamp in minutes. -/
def dayofyearOf (t : ℕ) : ℕ := doyAux (t / 1440 + 1) 1970 (t / 1440) + 1

/-- Is row `i` free of NaN in every column? -/
def completeRow (cols : List (String × List Val)) (i : ℕ) : Bool :=
  cols.all (fun c => (c.2.getD i none).isSome)

/-- The row positions `dropna` keeps: the rows complete in every column. -/
def dropKeep (df : DataFrame) : List ℕ :=
  (List.range df.index.length).filter (completeRow df.cols)

/-- pandas `dropna()`: keep exactly the rows complete in every column. -/
def dropna (df : DataFrame) : DataFrame :=
  { index := (dropKeep df).map (fun i => df.index.getD i 0),
    cols := df.cols.map (fun c => (c.1, (dropKeep df).map (fun i => c.2.getD i none))) }

/-- The row positions `dropna(subset=names)` keeps: the rows whose cells are
non-NaN in every column named in `names`. -/
def subsetKeep (df : DataFrame) (names : List String) : List ℕ :=
  (List.range df.index.length).filter
    (fun i => df.cols.all (fun c => !(names.contains c.1) || (c.2.getD i none).isSome))

/-- pandas `dropna(subset=names)`. -/
def dropnaSubset (df : DataFrame) (names : List String) : DataFrame :=
  { index := (subsetKeep df names).map (fun i => df.index.getD i 0),
    cols := df.cols.map (fun c => (c.1, (subsetKeep df names).map (fun i => c.2.getD i none))) }

/-- The column name `moisture_lag_k` (the f-string of the source). -/
def lagName (k : ℕ) : String := "moisture_lag_" ++ toString k

/-- The columns assembled by `create_lag_features` before its `dropna()`:
the three sensor columns, the lag columns `moisture_lag_1..lags`, the first
difference, the trailing rolling mean, and the three calendar columns read
off the index. -/
def lagFeatureCols (agg : AggDF) (lags : ℕ) : List (String × List Val) :=
  [("moisture", agg.moisture), ("temperature", agg.temperature), ("humidity", agg.humidity)] ++
    (List.range lags).map (fun j => (lagName (j + 1), shiftPos (j + 1) agg.moisture)) ++
    [("moisture_diff_1", List.zipWith subVal agg.moisture (shiftPos 1 agg.moisture)),
     ("moisture_rolling_mean_3", rollingMean3 agg.moisture),
     ("hour", agg.index.map (fun t => some ((hourOf t : ℚ)))),
     ("dayofyear", agg.index.map (fun t => some ((dayofyearOf t : ℚ)))),
     ("dayofweek", agg.index.map (fun t => some ((dayofweekOf t : ℚ))))]

/-- Embedding of `create_lag_features` (feature_engineering.py): assemble
the feature columns, then `dropna()`. -/
def create_lag_features (agg : AggDF) (lags : ℕ) : DataFrame :=
  dropna { index := agg.index, cols := lagFeatureCols agg lags }

/-! ### build_dataset -/

/-- The column name `target_t_plus_horizon` (the f-string of the source). -/
def targetName (horizon : ℕ) : String := "target_t_plus_" ++ toString horizon

/-- pandas label lookup (`.reindex` on a series whose index is `idx` and
whose cells are `vals`): the cell at `label`, NaN when the label is
absent. -/
def seriesAt (idx : List ℕ) (vals : List Val) (label : ℕ) : Val :=
  if idx.indexOf label < vals.length then vals.getD (idx.indexOf label) none else none

/-- The feature-column predicate of `build_dataset`'s list comprehension. -/
def isFeatureCol (c : String) : Bool :=
  pyStartsWith c "moisture_lag_" || pyStartsWith c "moisture_rolling" ||
    (["moisture_diff_1", "temperature", "humidity", "hour", "dayofyear", "dayofweek"].contains c)

/-- The target column of `build_dataset`: the raw moisture series shifted
by `-horizon`, re-aligned by label to the feature rows. -/
def targetVals (agg : AggDF) (lags horizon : ℕ) : List Val :=
  (create_lag_features agg lags).index.map (seriesAt agg.index (shiftNeg horizon agg.moisture))

/-- The feature frame with the target column appended (the state of `df`
in `build_dataset` just before its `dropna(subset=...)`). -/
def assembled (agg : AggDF) (lags horizon : ℕ) : DataFrame :=
  { index := (create_lag_features agg lags).index,
    cols := (create_lag_features agg lags).cols ++
      [(targetName horizon, targetVals agg lags horizon)] }

/-- Embedding of `build_dataset` (feature_engineering.py): build the lag
features, append the target column, drop the rows with a missing target,
and split into the feature matrix X (the columns selected by
`isFeatureCol`) and the target series y. -/
def build_dataset (agg : AggDF) (lags horizon : ℕ) : DataFrame × List Val :=
  let df3 := dropnaSubset (assembled agg lags horizon) [targetName horizon]
  ({ index := df3.index, cols := df3.cols.filter (fun c => isFeatureCol c.1) },
   ((df3.cols.find? (fun c => c.1 == targetName horizon)).map Prod.snd).getD [])

/-! ### predict.py: raw inputs and feature reconciliation -/

/-- The dict of raw inputs with keys soil, temp, hum (CLI values or the
sensor-store reading); a `none` field is Python's None. -/
structure Provided where
  soil : Val
  temp : Val
  hum : Val

/-- Python `provided.get(key)` for the three raw-input keys. -/
def providedGet (p : Provided) (key : String) : Val :=
  if key == "soil" then p.soil
  else if key == "temp" then p.temp
  else if key == "hum" then p.hum
  else none

/-- The `_KEYWORDS` table of predict.py, as the ordered association list the
dict is iterated in (insertion order soil, temp, hum). -/
def keywordTable : List (String × List String) :=
  [("soil", ["soil", "moist"]),
   ("temp", ["temp", "temperature"]),
   ("hum", ["hum", "humid", "humidity"])]

/-- The keyword loop of `map_inputs_to_features`: the first table key one of
whose keywords occurs in the lower-cased feature name. -/
def firstKeywordKey (fl : String) : Option String :=
  (keywordTable.find? (fun kv => kv.2.any (fun k => pyIn k fl))).map Prod.fst

/-- The exact-name fallback loop of `map_inputs_to_features`: the raw input
of the first of soil/temp/hum equal to the lower-cased name and present. -/
def exactMatchVal (fl : String) (p : Provided) : Val :=
  ["soil", "temp", "hum"].findSome? (fun key => if key == fl then providedGet p key else none)

/-- One feature's value in `map_inputs_to_features`: keyword match first
(prompting for the matched key when its raw input is absent), then the
exact-name fallback, else prompt for the feature itself.  `prompt` is the
interactive `prompt_float` oracle. -/
def assignFeature (p : Provided) (prompt : String → ℚ) (feat : String) : ℚ :=
  let fl := pyLower feat
  match firstKeywordKey fl with
  | some key =>
    match providedGet p key with
    | some v => v
    | none => prompt key
  | none =>
    match exactMatchVal fl p with
    | some v => v
    | none => prompt feat

/-- Embedding of `map_inputs_to_features` (predict.py): one named value per
feature name expected by the model. -/
def map_inputs_to_features (features : List String) (p : Provided) (prompt : String → ℚ) :
    List (String × ℚ) :=
  features.map (fun feat => (feat, assignFeature p prompt feat))

/-- Comparison definition for the unreachability claim: `assignFeature` with
the exact-name fallback branch removed, going straight from a failed
keyword match to the prompt. -/
def assignFeatureNoExact (p : Provided) (prompt : String → ℚ) (feat : String) : ℚ :=
  match firstKeywordKey (pyLower feat) with
  | some key =>
    match providedGet p key with
    | some v => v
    | none => prompt key
  | none => prompt feat

/-- Comparison definition: `map_inputs_to_features` routed through
`assignFeatureNoExact`. -/
def map_inputs_to_features_no_exact (features : List String) (p : Provided)
    (prompt : String → ℚ) : List (String × ℚ) :=
  features.map (fun feat => (feat, assignFeatureNoExact p prompt feat))

/-- The `features`-absent branch of `main`: prompt for each of the three raw
inputs still missing, in the order soil, temp, hum, then build the fixed
three-column row.  Besides the row, the keys prompted for are returned. -/
def fallback_row (p : Provided) (prompt : String → ℚ) : List (String × ℚ) × List String :=
  let s := match p.soil with | some v => (v, ([] : List String)) | none => (prompt "soil", ["soil"])
  let t := match p.temp with | some v => (v, ([] : List String)) | none => (prompt "temp", ["temp"])
  let u := match p.hum with | some v => (v, ([] : List String)) | none => (prompt "hum", ["hum"])
  ([("soil", s.1), ("temp", t.1), ("hum", u.1)], s.2 ++ t.2 ++ u.2)

/-! ### predict.py: artifact loading -/

/-- An opaque deserialized Python value: whether `hasattr(v, "predict")`
holds of it, and its truthiness (the `or` chains of `load_artifact` branch
on truthiness).  Feature lists and metadata dicts inside a bundle are
carried opaquely the same way. -/
structure PyVal where
  hasPredict : Bool
  truthy : Bool

/-- A deserialized model bundle: a dict with string keys, or a bare
object. -/
inductive Bundle where
  | dict (entries : List (String × PyVal))
  | bare (v : PyVal)

/-- Python `obj.get(k)` on a dict bundle (first entry with key `k`). -/
def dictGet (es : List (String × PyVal)) (k : String) : Option PyVal :=
  (es.find? (fun e => e.1 == k)).map Prod.snd

/-- Python `x or y` over optional values: keep `x` when present and truthy,
else fall through to `y`. -/
def pyOr (a b : Option PyVal) : Option PyVal :=
  match a with
  | some v => if v.truthy then some v else b
  | none => b

/-- Embedding of `load_artifact` (predict.py): on a dict, resolve the model
through `model`/`pipeline` (truthiness-guarded), then the first value with
predict capability; resolve features through `features`/`feature_names`;
`metadata` is the entry of that key (`none` standing for the `{}` default).
A dict always loads; a bare object loads only if it has predict capability,
else the RuntimeError is raised. -/
def load_artifact (b : Bundle) : Except String (Option PyVal × Option PyVal × Option PyVal) :=
  match b with
  | .dict es =>
    let model0 := pyOr (dictGet es "model") (pyOr (dictGet es "pipeline") none)
    let features := pyOr (dictGet es "features") (pyOr (dictGet es "feature_names") none)
    let metadata := dictGet es "metadata"
    let model :=
      match model0 with
      | some m => some m
      | none => (es.map Prod.snd).find? (fun v => v.hasPredict)
    .ok (model, features, metadata)
  | .bare v =>
    if v.hasPredict then .ok (some v, none, none)
    else .error "Model artifact does not contain a sklearn model or expected dict."

/-- The load stage of `main`: exit code 1 when `load_artifact` raises
(uncaught RuntimeError) or returns no model handle (`model is None`);
`none` means the run continues. -/
def load_step_exit (b : Bundle) : Option ℕ :=
  match load_artifact b with
  | .error _ => some 1
  | .ok (none, _, _) => some 1
  | .ok (some _, _, _) => none

/-! ### predict.py: predict call, report and persist -/

/-- The PREDICT step of `main`: `ps` is the outcome of `model.predict(X)`
on the structured (named-column) row, `pf` on the flat numeric array; the
structured call is made first and the flat call only on its failure;
two failures surface both messages. -/
def predict_step (ps pf : Except String ℤ) : Except (String × String) ℤ :=
  match ps with
  | .ok y => .ok y
  | .error e =>
    match pf with
    | .ok y => .ok y
    | .error e2 => .error (e, e2)

/-- Exit behaviour of the PREDICT step: exit code 1 exactly when both call
forms fail; `none` means the run continues. -/
def predict_step_exit (ps pf : Except String ℤ) : Option ℕ :=
  match predict_step ps pf with
  | .error _ => some 1
  | .ok _ => none

/-- The decision text printed by `main`. -/
def decisionText (raw : Bool) (out : ℤ) : String :=
  if raw then toString out else if out == 1 then "PUMP: ON" else "PUMP: OFF"

/-- The REPORT and PERSIST tail of `main`: print the decision, then attempt
the prediction-store write, whose outcome `save` is the inserted id or the
exception message; a failed write only prints a warning.  Returned are the
printed lines and the process exit code. -/
def report_and_persist (raw : Bool) (out : ℤ) (save : Except String String) :
    List String × ℕ :=
  let lines := [decisionText raw out]
  match save with
  | .ok oid => (lines ++ ["Prediction saved with ID: " ++ oid], 0)
  | .error e => (lines ++ ["Warning: Failed to save prediction to database: " ++ e], 0)

/-! ### String facts used by the column reasoning -/

theorem pyStartsWith_append (p s : String) : pyStartsWith (p ++ s) p = true := by
  unfold pyStartsWith
  rw [String.data_append]
  exact List.isPrefixOf_iff_prefix.mpr (List.prefix_append _ _)

theorem isFeatureCol_lagName (k : ℕ) : isFeatureCol (lagName k) = true := by
  unfold isFeatureCol lagName
  rw [pyStartsWith_append]
  rfl

theorem isPrefixOf_false_of_head_ne {a b : Char} (l1 l2 : List Char) (hab : (a == b) = false) :
    List.isPrefixOf (a :: l1) (b :: l2) = false := by
  simp [List.isPrefixOf]
  intro h
  simp [h] at hab

theorem beq_false_of_head_ne {a b : Char} {l1 l2 : List Char} {s t : String}
    (hs : s.data = a :: l1) (ht : t.data = b :: l2) (hab : a ≠ b) : (s == t) = false := by
  apply beq_eq_false_iff_ne.mpr
  intro he
  have hd := congrArg String.data he
  rw [hs, ht] at hd
  injection hd with h1 _
  exact hab h1

theorem beq_false_of_second_ne {a b c : Char} {l1 l2 : List Char} {s t : String}
    (hs : s.data = a :: b :: l1) (ht : t.data = a :: c :: l2) (hbc : b ≠ c) : (s == t) = false := by
  apply beq_eq_false_iff_ne.mpr
  intro he
  have hd := congrArg String.data he
  rw [hs, ht] at hd
  injection hd with _ h2
  injection h2 with h3 _
  exact hbc h3

theorem targetName_startsWith_lag (h : ℕ) :
    pyStartsWith (targetName h) "moisture_lag_" = false := by
  unfold pyStartsWith targetName
  rw [show ("target_t_plus_" ++ toString h).data
        = 't' :: ("arget_t_plus_".data ++ (toString h).data) from rfl]
  exact isPrefixOf_false_of_head_ne _ _ (by decide)

theorem targetName_startsWith_rolling (h : ℕ) :
    pyStartsWith (targetName h) "moisture_rolling" = false := by
  unfold pyStartsWith targetName
  rw [show ("target_t_plus_" ++ toString h).data
        = 't' :: ("arget_t_plus_".data ++ (toString h).data) from rfl]
  exact isPrefixOf_false_of_head_ne _ _ (by decide)

theorem isFeatureCol_targetName (h : ℕ) : isFeatureCol (targetName h) = false := by
  unfold isFeatureCol
  rw [targetName_startsWith_lag, targetName_startsWith_rolling]
  have h1 : (targetName h == "moisture_diff_1") = false :=
    beq_false_of_head_ne rfl rfl (by decide)
  have h2 : (targetName h == "temperature") = false :=
    beq_false_of_second_ne (a := 't') (b := 'a') (c := 'e') rfl rfl (by decide)
  have h3 : (targetName h == "humidity") = false :=
    beq_false_of_head_ne rfl rfl (by decide)
  have h4 : (targetName h == "hour") = false :=
    beq_false_of_head_ne rfl rfl (by decide)
  have h5 : (targetName h == "dayofyear") = false :=
    beq_false_of_head_ne rfl rfl (by decide)
  have h6 : (targetName h == "dayofweek") = false :=
    beq_false_of_head_ne rfl rfl (by decide)
  simp [List.contains, List.elem, h1, h2, h3, h4, h5, h6]

/-! ### Column-name computations -/

theorem filter_names (p : String → Bool) (l : List (String × List Val)) :
    (l.filter (fun c => p c.1)).map Prod.fst = (l.map Prod.fst).filter p :=
  (List.filter_map Prod.fst l).symm

theorem dropna_colNames (df : DataFrame) :
    (dropna df).cols.map Prod.fst = df.cols.map Prod.fst := by
  simp [dropna]

theorem dropnaSubset_colNames (df : DataFrame) (names : List String) :
    (dropnaSubset df names).cols.map Prod.fst = df.cols.map Prod.fst := by
  simp [dropnaSubset]

theorem create_lag_colNames (agg : AggDF) (lags : ℕ) :
    (create_lag_features agg lags).cols.map Prod.fst =
      ["moisture", "temperature", "humidity"] ++
        (List.range lags).map (fun j => lagName (j + 1)) ++
        ["moisture_diff_1", "moisture_rolling_mean_3", "hour", "dayofyear", "dayofweek"] := by
  unfold create_lag_features
  rw [dropna_colNames]
  simp [lagFeatureCols, List.map_map, Function.comp]

theorem build_dataset_colNames (agg : AggDF) (lags horizon : ℕ) :
    (build_dataset agg lags horizon).1.cols.map Prod.fst =
      ["temperature", "humidity"] ++
        (List.range lags).map (fun j => lagName (j + 1)) ++
        ["moisture_diff_1", "moisture_rolling_mean_3", "hour", "dayofyear", "dayofweek"] := by
  unfold build_dataset
  rw [filter_names, dropnaSubset_colNames]
  simp only [assembled, List.map_append, create_lag_colNames]
  simp only [List.filter_append]
  have hA : ["moisture", "temperature", "humidity"].filter isFeatureCol
      = ["temperature", "humidity"] := by decide
  have hLag : ((List.range lags).map (fun j => lagName (j + 1))).filter isFeatureCol
      = (List.range lags).map (fun j => lagName (j + 1)) :=
    List.filter_eq_self.mpr (fun a ha => by
      obtain ⟨j, _, rfl⟩ := List.mem_map.mp ha
      exact isFeatureCol_lagName (j + 1))
  have hE : ["moisture_diff_1", "moisture_rolling_mean_3", "hour", "dayofyear",
      "dayofweek"].filter isFeatureCol
      = ["moisture_diff_1", "moisture_rolling_mean_3", "hour", "dayofyear", "dayofweek"] := by
    decide
  rw [hA, hLag, hE]
  simp [List.filter, isFeatureCol_targetName]

/-- C1: for every resampled series, lag count and horizon, the feature
matrix X of `build_dataset` has exactly the columns temperature, humidity,
the moisture lag columns, moisture_diff_1, moisture_rolling_mean_3, hour,
dayofyear and dayofweek; in particular the raw current-interval moisture
column is excluded. -/
theorem c1_leakage_exclusion (agg : AggDF) (lags horizon : ℕ) :
    (build_dataset agg lags horizon).1.cols.map Prod.fst =
      ["temperature", "humidity"] ++
        (List.range lags).map (fun j => lagName (j + 1)) ++
        ["moisture_diff_1", "moisture_rolling_mean_3", "hour", "dayofyear", "dayofweek"] ∧
    "moisture" ∉ (build_dataset agg lags horizon).1.cols.map Prod.fst := by
  refine ⟨build_dataset_colNames agg lags horizon, ?_⟩
  rw [build_dataset_colNames]
  intro hmem
  rcases List.mem_append.mp hmem with hmem2 | h5
  · rcases List.mem_append.mp hmem2 with h2 | hlag
    · simp at h2
    · obtain ⟨j, _, hj⟩ := List.mem_map.mp hlag
      have hlen := congrArg String.length hj
      rw [lagName, String.length_append] at hlen
      have h13 : ("moisture_lag_" : String).length = 13 := rfl
      have h8 : ("moisture" : String).length = 8 := rfl
      omega
  · simp at h5

/-! ### Row-level facts about dropped and retained rows -/

theorem map_getD {α β : Type} (f : α → β) (l : List α) (j : ℕ) (d : β) (hj : j < l.length) :
    (l.map f).getD j d = f l[j] := by
  rw [List.getD_eq_getElem _ _ (by simpa using hj)]
  exact List.getElem_map f

theorem keep_facts {n : ℕ} {p : ℕ → Bool} {j : ℕ}
    (hj : j < ((List.range n).filter p).length) :
    ((List.range n).filter p)[j] < n ∧ p (((List.range n).filter p)[j]) = true := by
  have hm := List.getElem_mem hj
  have h2 := List.mem_filter.mp hm
  exact ⟨List.mem_range.mp h2.1, h2.2⟩

theorem not_mem_keep {n : ℕ} {p : ℕ → Bool} {i : ℕ} (hp : p i = false) :
    i ∉ (List.range n).filter p := by
  intro hm
  have h2 := (List.mem_filter.mp hm).2
  rw [hp] at h2
  cases h2

theorem shiftPos_length (lag : ℕ) (xs : List Val) : (shiftPos lag xs).length = xs.length := by
  simp [shiftPos]

theorem shiftNeg_length (h : ℕ) (xs : List Val) : (shiftNeg h xs).length = xs.length := by
  simp [shiftNeg]
  omega

theorem shiftPos_getD (lag : ℕ) (xs : List Val) (i : ℕ) (hi : i < xs.length) :
    (shiftPos lag xs).getD i none = if i < lag then none else xs.getD (i - lag) none := by
  unfold shiftPos
  rw [List.getD_eq_getElem _ _ (by simp [shiftPos] at hi ⊢; omega)]
  rw [List.getElem_take]
  by_cases hc : i < lag
  · rw [List.getElem_append_left (by simpa using hc)]
    simp [hc]
  · rw [List.getElem_append_right (by simpa using hc)]
    simp only [List.length_replicate]
    rw [if_neg hc, List.getD_eq_getElem _ _ (by omega)]

theorem shiftNeg_getD (h : ℕ) (xs : List Val) (i : ℕ) (hi : i < xs.length) :
    (shiftNeg h xs).getD i none = xs.getD (i + h) none := by
  unfold shiftNeg
  rw [List.getD_eq_getElem _ _ (by simp [shiftNeg]; omega)]
  by_cases hc : i < xs.length - h
  · rw [List.getElem_append_left (by simpa using hc)]
    rw [List.getElem_drop, List.getD_eq_getElem _ _ (by omega)]
    congr 1
    omega
  · rw [List.getElem_append_right (by simpa using hc)]
    rw [List.getElem_replicate, List.getD_eq_default _ _ (by omega)]

theorem rollingMean3_length (xs : List Val) : (rollingMean3 xs).length = xs.length := by
  simp [rollingMean3]

theorem lagFeatureCols_length (agg : AggDF) (lags : ℕ) :
    (lagFeatureCols agg lags).length = lags + 8 := by
  simp [lagFeatureCols]

theorem lagFeatureCols_getD (agg : AggDF) {lags k : ℕ} (h1 : 1 ≤ k) (h2 : k ≤ lags) :
    (lagFeatureCols agg lags).getD (2 + k) ("", []) =
      (lagName k, shiftPos k agg.moisture) := by
  unfold lagFeatureCols
  rw [List.append_assoc]
  rw [List.getD_eq_getElem _ _ (by simp; omega)]
  rw [List.getElem_append_right (by simp; omega)]
  rw [List.getElem_append_left (by simp; omega)]
  rw [List.getElem_map, List.getElem_range]
  have hk : 2 + k - List.length
      [("moisture", agg.moisture), ("temperature", agg.temperature),
        ("humidity", agg.humidity)] + 1 = k := by simp; omega
  rw [hk]

theorem lagFeatureCols_mem_lag (agg : AggDF) {lags k : ℕ} (h1 : 1 ≤ k) (h2 : k ≤ lags) :
    (lagName k, shiftPos k agg.moisture) ∈ lagFeatureCols agg lags := by
  have hg := lagFeatureCols_getD agg h1 h2
  rw [List.getD_eq_getElem _ _ (by rw [lagFeatureCols_length]; omega)] at hg
  rw [← hg]
  exact List.getElem_mem _

/-- C3: every retained row of create_lag_features sits at some interval
position i of the resampled series; its moisture_lag_k column holds the
moisture value at position i-k for each k in 1..lags; and every interval
position with i < lags (some lag out of range) is absent from the output. -/
theorem c3_lag_correctness (agg : AggDF) (lags : ℕ) (hwf : agg.Wf) :
    (∀ j, j < (create_lag_features agg lags).index.length →
      ∃ i, i < agg.index.length ∧
        (create_lag_features agg lags).index.getD j 0 = agg.index.getD i 0 ∧
        ∀ k, 1 ≤ k → k ≤ lags →
          k ≤ i ∧
          ∃ vals,
            (create_lag_features agg lags).cols.getD (2 + k) ("", []) = (lagName k, vals) ∧
            vals.getD j none = agg.moisture.getD (i - k) none ∧
            (agg.moisture.getD (i - k) none).isSome = true) ∧
    (∀ i, i < agg.index.length → i < lags →
      agg.index.getD i 0 ∉ (create_lag_features agg lags).index) := by
  obtain ⟨hm, ht, hh, hnd⟩ := hwf
  have hidx : (create_lag_features agg lags).index
      = (dropKeep ⟨agg.index, lagFeatureCols agg lags⟩).map (fun i => agg.index.getD i 0) := rfl
  have hcols : (create_lag_features agg lags).cols
      = (lagFeatureCols agg lags).map
          (fun c => (c.1, (dropKeep ⟨agg.index, lagFeatureCols agg lags⟩).map
            (fun i => c.2.getD i none))) := rfl
  have hK : dropKeep ⟨agg.index, lagFeatureCols agg lags⟩
      = (List.range agg.index.length).filter (completeRow (lagFeatureCols agg lags)) := rfl
  constructor
  · intro j hj
    rw [hidx, List.length_map, hK] at hj
    obtain ⟨hiN, hcomp⟩ := keep_facts hj
    refine ⟨((List.range agg.index.length).filter
      (completeRow (lagFeatureCols agg lags)))[j], hiN, ?_, ?_⟩
    · rw [hidx, hK]
      exact map_getD _ _ j 0 hj
    · intro k h1k h2k
      have hmem := lagFeatureCols_mem_lag agg h1k h2k
      have hall := List.all_eq_true.mp hcomp _ hmem
      rw [shiftPos_getD k agg.moisture _ (by rw [hm]; exact hiN)] at hall
      by_cases hik : ((List.range agg.index.length).filter
          (completeRow (lagFeatureCols agg lags)))[j] < k
      · rw [if_pos hik] at hall
        cases hall
      · rw [if_neg hik] at hall
        refine ⟨by omega, ?_⟩
        refine ⟨(dropKeep ⟨agg.index, lagFeatureCols agg lags⟩).map
          (fun i => (shiftPos k agg.moisture).getD i none), ?_, ?_, hall⟩
        · rw [hcols]
          rw [map_getD _ _ (2 + k) ("", []) (by rw [lagFeatureCols_length]; omega)]
          have hg := lagFeatureCols_getD agg h1k h2k
          rw [List.getD_eq_getElem _ _ (by rw [lagFeatureCols_length]; omega)] at hg
          rw [hg]
        · rw [hK, map_getD _ _ j none hj]
          rw [shiftPos_getD k agg.moisture _ (by rw [hm]; exact hiN)]
          rw [if_neg hik]
  · intro i hi hil
    have hlag1 : 1 ≤ lags := by omega
    have hfalse : completeRow (lagFeatureCols agg lags) i = false := by
      rcases hcb : completeRow (lagFeatureCols agg lags) i
      · rfl
      · exfalso
        have hmem := lagFeatureCols_mem_lag agg hlag1 (le_refl lags)
        have hall := List.all_eq_true.mp hcb _ hmem
        rw [shiftPos_getD lags agg.moisture i (by rw [hm]; exact hi)] at hall
        rw [if_pos hil] at hall
        cases hall
    rw [hidx, hK]
    intro hmem
    obtain ⟨q, hqK, hqeq⟩ := List.mem_map.mp hmem
    have hqf := List.mem_filter.mp hqK
    have hqN := List.mem_range.mp hqf.1
    rw [List.getD_eq_getElem _ _ hqN, List.getD_eq_getElem _ _ hi] at hqeq
    have hqi := (List.Nodup.getElem_inj_iff hnd).mp hqeq
    rw [hqi] at hqf
    rw [hfalse] at hqf
    cases hqf.2

/-- Shared concrete resampled series used by the concrete instantiations. -/
def aggEx : AggDF :=
  { index := [0, 15, 30, 45, 60],
    moisture := [some 1, some 2, some 3, some 4, some 5],
    temperature := List.replicate 5 (some 20),
    humidity := List.replicate 5 (some 50) }

theorem c3_lag_correctness_witness :
    aggEx.Wf ∧ aggEx.index.getD 0 0 ∉ (create_lag_features aggEx 2).index :=
  ⟨by constructor <;> simp [aggEx],
   (c3_lag_correctness aggEx 2 (by constructor <;> simp [aggEx])).2 0
     (by decide) (by decide)⟩

theorem find?_append_singleton {α : Type} (l : List α) (c : α) (p : α → Bool)
    (hl : ∀ a ∈ l, p a = false) (hc : p c = true) : (l ++ [c]).find? p = some c := by
  induction l with
  | nil => simp [List.find?, hc]
  | cons a as ih =>
    have ha := hl a (by simp)
    simp only [List.cons_append, List.find?, ha]
    exact ih (fun x hx => hl x (by simp [hx]))

theorem clf_name_ne_target (agg : AggDF) (lags horizon : ℕ) :
    ∀ c ∈ (create_lag_features agg lags).cols, (c.1 == targetName horizon) = false := by
  intro c hc
  have hname : c.1 ∈ (create_lag_features agg lags).cols.map Prod.fst :=
    List.mem_map_of_mem _ hc
  rw [create_lag_colNames] at hname
  have htarget : (targetName horizon).data
      = 't' :: ("arget_t_plus_".data ++ (toString horizon).data) := rfl
  have htarget2 : (targetName horizon).data
      = 't' :: 'a' :: ("rget_t_plus_".data ++ (toString horizon).data) := rfl
  rcases List.mem_append.mp hname with h3 | h5
  · rcases List.mem_append.mp h3 with hb | hlag
    · simp only [List.mem_cons, List.not_mem_nil, or_false] at hb
      rcases hb with h | h | h
      · rw [h]; exact beq_false_of_head_ne rfl htarget (by decide)
      · rw [h]; exact beq_false_of_second_ne rfl htarget2 (by decide)
      · rw [h]; exact beq_false_of_head_ne rfl htarget (by decide)
    · obtain ⟨j, _, hj⟩ := List.mem_map.mp hlag
      rw [← hj]
      exact beq_false_of_head_ne rfl htarget (by decide)
  · simp only [List.mem_cons, List.not_mem_nil, or_false] at h5
    rcases h5 with h | h | h | h | h
    · rw [h]; exact beq_false_of_head_ne rfl htarget (by decide)
    · rw [h]; exact beq_false_of_head_ne rfl htarget (by decide)
    · rw [h]; exact beq_false_of_head_ne rfl htarget (by decide)
    · rw [h]; exact beq_false_of_head_ne rfl htarget (by decide)
    · rw [h]; exact beq_false_of_head_ne rfl htarget (by decide)

theorem subsetKeep_assembled (agg : AggDF) (lags horizon : ℕ) :
    subsetKeep (assembled agg lags horizon) [targetName horizon]
      = (List.range (create_lag_features agg lags).index.length).filter
          (fun i => ((targetVals agg lags horizon).getD i none).isSome) := by
  unfold subsetKeep
  apply List.filter_congr
  intro i _
  show ((assembled agg lags horizon).cols.all _) = _
  have hsplit : (assembled agg lags horizon).cols
      = (create_lag_features agg lags).cols
          ++ [(targetName horizon, targetVals agg lags horizon)] := rfl
  rw [hsplit, List.all_append]
  have h1 : ((create_lag_features agg lags).cols.all
      (fun c => !([targetName horizon].contains c.1) || ((c.2.getD i none).isSome))) = true := by
    apply List.all_eq_true.mpr
    intro c hcmem
    have hne := clf_name_ne_target agg lags horizon c hcmem
    simp only [List.contains_cons, List.contains_nil, Bool.or_false, hne]
    rfl
  rw [h1]
  simp [List.contains_cons]

theorem build_dataset_y (agg : AggDF) (lags horizon : ℕ) :
    (build_dataset agg lags horizon).2
      = (subsetKeep (assembled agg lags horizon) [targetName horizon]).map
          (fun i => (targetVals agg lags horizon).getD i none) := by
  have hsplit : (assembled agg lags horizon).cols
      = (create_lag_features agg lags).cols
          ++ [(targetName horizon, targetVals agg lags horizon)] := rfl
  have hcols : (dropnaSubset (assembled agg lags horizon) [targetName horizon]).cols
      = (create_lag_features agg lags).cols.map
          (fun c => (c.1, (subsetKeep (assembled agg lags horizon) [targetName horizon]).map
            (fun i => c.2.getD i none)))
        ++ [(targetName horizon,
              (subsetKeep (assembled agg lags horizon) [targetName horizon]).map
                (fun i => (targetVals agg lags horizon).getD i none))] := by
    rw [show (dropnaSubset (assembled agg lags horizon) [targetName horizon]).cols
        = (assembled agg lags horizon).cols.map
            (fun c => (c.1, (subsetKeep (assembled agg lags horizon) [targetName horizon]).map
              (fun i => c.2.getD i none))) from rfl]
    rw [hsplit, List.map_append]
    rfl
  simp only [build_dataset]
  rw [hcols]
  rw [find?_append_singleton _ _ _ ?hl ?hc]
  · rfl
  case hl =>
    intro a ha
    obtain ⟨c, hcmem, hceq⟩ := List.mem_map.mp ha
    have hne := clf_name_ne_target agg lags horizon c hcmem
    rw [← hceq]
    exact hne
  case hc => simp

theorem keep_facts_getD {n : ℕ} {p : ℕ → Bool} {j : ℕ}
    (hj : j < ((List.range n).filter p).length) :
    ((List.range n).filter p).getD j 0 < n ∧
      p (((List.range n).filter p).getD j 0) = true := by
  rw [List.getD_eq_getElem _ _ hj]
  exact keep_facts hj

theorem map_getD2 {α β : Type} (f : α → β) (l : List α) (j : ℕ) (d : β) (d' : α)
    (hj : j < l.length) : (l.map f).getD j d = f (l.getD j d') := by
  rw [map_getD f l j d hj, List.getD_eq_getElem _ _ hj]

/-- C2: X and y of build_dataset have the same number of rows; every
retained row sits at some interval position i of the resampled series and
its target equals the moisture value at position i+horizon, which is
present (rows with an undefined shifted target are dropped). -/
theorem c2_target_alignment (agg : AggDF) (lags horizon : ℕ) (hwf : agg.Wf) :
    (build_dataset agg lags horizon).1.index.length
      = (build_dataset agg lags horizon).2.length ∧
    (∀ c ∈ (build_dataset agg lags horizon).1.cols,
      c.2.length = (build_dataset agg lags horizon).2.length) ∧
    (∀ j, j < (build_dataset agg lags horizon).2.length →
      ∃ i, i < agg.index.length ∧
        (build_dataset agg lags horizon).1.index.getD j 0 = agg.index.getD i 0 ∧
        (build_dataset agg lags horizon).2.getD j none
          = agg.moisture.getD (i + horizon) none ∧
        ((build_dataset agg lags horizon).2.getD j none).isSome = true) := by
  obtain ⟨hm, ht, hh, hnd⟩ := hwf
  have hyF : (build_dataset agg lags horizon).2
      = ((List.range (create_lag_features agg lags).index.length).filter
          (fun i => ((targetVals agg lags horizon).getD i none).isSome)).map
          (fun i => (targetVals agg lags horizon).getD i none) := by
    rw [build_dataset_y, subsetKeep_assembled]
  have hXidxF : (build_dataset agg lags horizon).1.index
      = ((List.range (create_lag_features agg lags).index.length).filter
          (fun i => ((targetVals agg lags horizon).getD i none).isSome)).map
          (fun i => (create_lag_features agg lags).index.getD i 0) := by
    rw [show (build_dataset agg lags horizon).1.index
        = (subsetKeep (assembled agg lags horizon) [targetName horizon]).map
            (fun i => (create_lag_features agg lags).index.getD i 0) from rfl]
    rw [subsetKeep_assembled]
  have hK1 : (create_lag_features agg lags).index
      = (dropKeep ⟨agg.index, lagFeatureCols agg lags⟩).map (fun i => agg.index.getD i 0) := rfl
  have hlenM : (create_lag_features agg lags).index.length
      = (dropKeep ⟨agg.index, lagFeatureCols agg lags⟩).length := by
    rw [hK1, List.length_map]
  refine ⟨?_, ?_, ?_⟩
  · rw [hXidxF, hyF]
    simp
  · intro c hc
    have hc2 := List.mem_of_mem_filter hc
    rw [show (dropnaSubset (assembled agg lags horizon) [targetName horizon]).cols
        = (assembled agg lags horizon).cols.map
            (fun c => (c.1, (subsetKeep (assembled agg lags horizon) [targetName horizon]).map
              (fun i => c.2.getD i none))) from rfl] at hc2
    obtain ⟨c0, _, hc0⟩ := List.mem_map.mp hc2
    rw [← hc0, hyF]
    simp [subsetKeep_assembled]
  · intro j hj
    rw [hyF, List.length_map] at hj
    obtain ⟨hpM, hq⟩ := keep_facts_getD hj
    have hPK1 : ((List.range (create_lag_features agg lags).index.length).filter
        (fun i => ((targetVals agg lags horizon).getD i none).isSome)).getD j 0
          < (dropKeep ⟨agg.index, lagFeatureCols agg lags⟩).length := by
      omega
    have hkf2 := keep_facts_getD (n := agg.index.length)
      (p := completeRow (lagFeatureCols agg lags))
      (j := ((List.range (create_lag_features agg lags).index.length).filter
        (fun i => ((targetVals agg lags horizon).getD i none).isSome)).getD j 0) hPK1
    have hiN : (dropKeep ⟨agg.index, lagFeatureCols agg lags⟩).getD
        (((List.range (create_lag_features agg lags).index.length).filter
          (fun i => ((targetVals agg lags horizon).getD i none).isSome)).getD j 0) 0
          < agg.index.length := hkf2.1
    have hclfP : (create_lag_features agg lags).index.getD
        (((List.range (create_lag_features agg lags).index.length).filter
          (fun i => ((targetVals agg lags horizon).getD i none).isSome)).getD j 0) 0
        = agg.index.getD
            ((dropKeep ⟨agg.index, lagFeatureCols agg lags⟩).getD
              (((List.range (create_lag_features agg lags).index.length).filter
                (fun i => ((targetVals agg lags horizon).getD i none).isSome)).getD j 0) 0) 0 := by
      rw [hK1]
      exact map_getD2 _ _ _ 0 0 hPK1
    have hval : (targetVals agg lags horizon).getD
        (((List.range (create_lag_features agg lags).index.length).filter
          (fun i => ((targetVals agg lags horizon).getD i none).isSome)).getD j 0) none
        = agg.moisture.getD
            ((dropKeep ⟨agg.index, lagFeatureCols agg lags⟩).getD
              (((List.range (create_lag_features agg lags).index.length).filter
                (fun i => ((targetVals agg lags horizon).getD i none).isSome)).getD j 0) 0
              + horizon) none := by
      have h1 : (targetVals agg lags horizon).getD
          (((List.range (create_lag_features agg lags).index.length).filter
            (fun i => ((targetVals agg lags horizon).getD i none).isSome)).getD j 0) none
          = seriesAt agg.index (shiftNeg horizon agg.moisture)
              ((create_lag_features agg lags).index.getD
                (((List.range (create_lag_features agg lags).index.length).filter
                  (fun i => ((targetVals agg lags horizon).getD i none).isSome)).getD j 0) 0) :=
        map_getD2 (seriesAt agg.index (shiftNeg horizon agg.moisture))
          (create_lag_features agg lags).index _ none 0 hpM
      rw [h1, hclfP]
      rw [List.getD_eq_getElem _ _ hiN]
      unfold seriesAt
      rw [List.indexOf_getElem hnd _ hiN]
      rw [if_pos (by rw [shiftNeg_length, hm]; exact hiN)]
      have h2 := shiftNeg_getD horizon agg.moisture
        ((dropKeep ⟨agg.index, lagFeatureCols agg lags⟩).getD
          (((List.range (create_lag_features agg lags).index.length).filter
            (fun i => ((targetVals agg lags horizon).getD i none).isSome)).getD j 0) 0)
        (by rw [hm]; exact hiN)
      exact h2
    refine ⟨(dropKeep ⟨agg.index, lagFeatureCols agg lags⟩).getD
      (((List.range (create_lag_features agg lags).index.length).filter
        (fun i => ((targetVals agg lags horizon).getD i none).isSome)).getD j 0) 0,
      hiN, ?_, ?_, ?_⟩
    · rw [hXidxF]
      rw [map_getD2 _ _ j 0 0 hj]
      exact hclfP
    · rw [hyF]
      rw [map_getD2 _ _ j none 0 hj]
      exact hval
    · rw [hyF]
      rw [map_getD2 _ _ j none 0 hj]
      rw [hval] at hq ⊢
      exact hq

theorem c2_target_alignment_witness :
    aggEx.Wf ∧ (build_dataset aggEx 2 1).1.index.length = (build_dataset aggEx 2 1).2.length :=
  ⟨by constructor <;> simp [aggEx],
   (c2_target_alignment aggEx 2 1 (by constructor <;> simp [aggEx])).1⟩

theorem ffillAux_getD_some (limit : ℕ) (last : Val) (cnt : ℕ) (xs : List Val) (j : ℕ) (x : ℚ)
    (hj : xs.getD j none = some x) : (ffillAux limit last cnt xs).getD j none = some x := by
  induction xs generalizing last cnt j with
  | nil => simp at hj
  | cons a rest ih =>
    rcases j with _ | j
    · rw [List.getD_cons_zero] at hj
      subst hj
      cases last <;> simp [ffillAux]
    · rw [List.getD_cons_succ] at hj
      rcases a with _ | w
      · rcases last with _ | u
        · simp only [ffillAux, List.getD_cons_succ]
          exact ih none (cnt + 1) j hj
        · by_cases hc : cnt < limit
          · simp only [ffillAux, if_pos hc, List.getD_cons_succ]
            exact ih (some u) (cnt + 1) j hj
          · simp only [ffillAux, if_neg hc, List.getD_cons_succ]
            exact ih (some u) (cnt + 1) j hj
      · simp only [ffillAux, List.getD_cons_succ]
        exact ih (some w) 0 j hj

theorem ffillAux_gap (v : ℚ) (g : ℕ) (rest : List Val) (cnt : ℕ) :
    (ffillAux 2 (some v) cnt (List.replicate g none ++ rest)).take g
      = List.replicate (min g (2 - cnt)) (some v) ++ List.replicate (g - (2 - cnt)) none := by
  induction g generalizing cnt with
  | zero => simp
  | succ g ih =>
    rw [List.replicate_succ, List.cons_append]
    by_cases hc : cnt < 2
    · rw [show ffillAux 2 (some v) cnt (none :: (List.replicate g none ++ rest))
          = some v :: ffillAux 2 (some v) (cnt + 1) (List.replicate g none ++ rest) by
        simp [ffillAux, hc]]
      rw [List.take_succ_cons, ih (cnt + 1)]
      have h1 : min (g + 1) (2 - cnt) = min g (2 - (cnt + 1)) + 1 := by omega
      have h2 : (g + 1) - (2 - cnt) = g - (2 - (cnt + 1)) := by omega
      rw [h1, h2, List.replicate_succ, List.cons_append]
    · rw [show ffillAux 2 (some v) cnt (none :: (List.replicate g none ++ rest))
          = none :: ffillAux 2 (some v) (cnt + 1) (List.replicate g none ++ rest) by
        simp [ffillAux, hc]]
      rw [List.take_succ_cons, ih (cnt + 1)]
      have h1 : min g (2 - (cnt + 1)) = 0 := by omega
      have h2 : g - (2 - (cnt + 1)) = g := by omega
      have h3 : min (g + 1) (2 - cnt) = 0 := by omega
      have h4 : (g + 1) - (2 - cnt) = g + 1 := by omega
      rw [h1, h2, h3, h4]
      simp [List.replicate_succ]

theorem ffillAux_drop_gap (p : List Val) (v : ℚ) (g : ℕ) (rest : List Val) :
    ∀ (last : Val) (cnt : ℕ),
      ((ffillAux 2 last cnt (p ++ some v :: (List.replicate g none ++ rest))).drop
          (p.length + 1)).take g
        = List.replicate (min g 2) (some v) ++ List.replicate (g - 2) none := by
  induction p with
  | nil =>
    intro last cnt
    rw [List.nil_append]
    rw [show ffillAux 2 last cnt (some v :: (List.replicate g none ++ rest))
        = some v :: ffillAux 2 (some v) 0 (List.replicate g none ++ rest) by
      cases last <;> simp [ffillAux]]
    simp only [List.length_nil, Nat.zero_add, List.drop_succ_cons, List.drop_zero]
    have h := ffillAux_gap v g rest 0
    simpa using h
  | cons a p ih =>
    intro last cnt
    rw [List.cons_append]
    have hdrop : (a :: p).length + 1 = (p.length + 1) + 1 := by simp
    rcases a with _ | w
    · rcases last with _ | u
      · rw [show ffillAux 2 none cnt
              (none :: (p ++ some v :: (List.replicate g none ++ rest)))
            = none :: ffillAux 2 none (cnt + 1)
                (p ++ some v :: (List.replicate g none ++ rest)) by simp [ffillAux]]
        rw [hdrop, List.drop_succ_cons]
        exact ih none (cnt + 1)
      · by_cases hc : cnt < 2
        · rw [show ffillAux 2 (some u) cnt
                (none :: (p ++ some v :: (List.replicate g none ++ rest)))
              = some u :: ffillAux 2 (some u) (cnt + 1)
                  (p ++ some v :: (List.replicate g none ++ rest)) by simp [ffillAux, hc]]
          rw [hdrop, List.drop_succ_cons]
          exact ih (some u) (cnt + 1)
        · rw [show ffillAux 2 (some u) cnt
                (none :: (p ++ some v :: (List.replicate g none ++ rest)))
              = none :: ffillAux 2 (some u) (cnt + 1)
                  (p ++ some v :: (List.replicate g none ++ rest)) by simp [ffillAux, hc]]
          rw [hdrop, List.drop_succ_cons]
          exact ih (some u) (cnt + 1)
    · rw [show ffillAux 2 last cnt
            (some w :: (p ++ some v :: (List.replicate g none ++ rest)))
          = some w :: ffillAux 2 (some w) 0
              (p ++ some v :: (List.replicate g none ++ rest)) by cases last <;> simp [ffillAux]]
      rw [hdrop, List.drop_succ_cons]
      exact ih (some w) 0

/-- C4: in resample_and_aggregate, an interval whose observations have a
defined mean keeps exactly that mean, and a run of g missing intervals
right after a known value comes out with exactly min(g,2) cells filled
with that value and the remaining g-2 cells still missing. -/
theorem c4_resample_mean_ffill_cap (obs : List Obs) (interval : ℕ) :
    (∀ j v, j < (bucketList obs interval).length →
      meanOpt (bucketCells obs interval ((bucketList obs interval).getD j 0) Obs.moisture)
        = some v →
      (resample_and_aggregate obs interval).moisture.getD j none = some v) ∧
    (∀ (p : List Val) (v : ℚ) (g : ℕ) (rest : List Val),
      bucketMeans obs interval Obs.moisture
        = p ++ some v :: (List.replicate g none ++ rest) →
      (((resample_and_aggregate obs interval).moisture.drop (p.length + 1)).take g
        = List.replicate (min g 2) (some v) ++ List.replicate (g - 2) none)) := by
  constructor
  · intro j v hj hmean
    have hb : (bucketMeans obs interval Obs.moisture).getD j none = some v := by
      rw [show bucketMeans obs interval Obs.moisture
          = (bucketList obs interval).map
              (fun b => meanOpt (bucketCells obs interval b Obs.moisture)) from rfl]
      rw [map_getD2 _ _ j none 0 hj]
      exact hmean
    exact ffillAux_getD_some 2 none 0 _ j v hb
  · intro p v g rest hshape
    rw [show (resample_and_aggregate obs interval).moisture
        = ffillLimit 2 (bucketMeans obs interval Obs.moisture) from rfl]
    rw [hshape]
    exact ffillAux_drop_gap p v g rest none 0

/-- Concrete observation list: one value, a two-interval gap, one value. -/
def obsEx2 : List Obs := [⟨0, some 1, none, none⟩, ⟨50, some 3, none, none⟩]

theorem c4_resample_mean_ffill_cap_witness :
    (0 < (bucketList obsEx2 15).length ∧
      meanOpt (bucketCells obsEx2 15 ((bucketList obsEx2 15).getD 0 0) Obs.moisture)
        = some 1 ∧
      bucketMeans obsEx2 15 Obs.moisture
        = [] ++ some 1 :: (List.replicate 2 none ++ [some 3])) ∧
    (resample_and_aggregate obsEx2 15).moisture.getD 0 none = some 1 ∧
    ((resample_and_aggregate obsEx2 15).moisture.drop 1).take 2 = [some 1, some 1] := by
  have h0 : bucketList obsEx2 15 = [0, 1, 2, 3] := by decide
  have hc0 : bucketCells obsEx2 15 0 Obs.moisture = [some 1] := by decide
  have hc1 : bucketCells obsEx2 15 1 Obs.moisture = [] := by decide
  have hc2 : bucketCells obsEx2 15 2 Obs.moisture = [] := by decide
  have hc3 : bucketCells obsEx2 15 3 Obs.moisture = [some 3] := by decide
  have hmean : meanOpt (bucketCells obsEx2 15 ((bucketList obsEx2 15).getD 0 0) Obs.moisture)
      = some 1 := by
    rw [h0, List.getD_cons_zero, hc0]
    norm_num [meanOpt, List.filterMap_cons, List.filterMap_nil, id]
  have hbm : bucketMeans obsEx2 15 Obs.moisture
      = [] ++ some 1 :: (List.replicate 2 none ++ [some 3]) := by
    rw [bucketMeans, h0]
    simp only [List.map_cons, List.map_nil, List.getD_cons_zero, hc0, hc1, hc2, hc3]
    norm_num [meanOpt, List.filterMap_cons, List.filterMap_nil, id, List.replicate]
  refine ⟨⟨by rw [h0]; simp, hmean, hbm⟩, ?_, ?_⟩
  · exact (c4_resample_mean_ffill_cap obsEx2 15).1 0 1 (by rw [h0]; simp) hmean
  · exact (c4_resample_mean_ffill_cap obsEx2 15).2 [] 1 2 [some 3] hbm

/-- C5: keyword dispatch in map_inputs_to_features tests the keyword sets
in the fixed order soil, temp, hum and assigns the raw input of the first
matching set; a name containing both soil and temp substrings gets the soil
input. -/
theorem c5_keyword_priority (p : Provided) (prompt : String → ℚ) (s t u : ℚ)
    (hs : p.soil = some s) (ht : p.temp = some t) (hu : p.hum = some u) :
    (∀ feat : String, (["soil", "moist"].any (fun k => pyIn k (pyLower feat))) = true →
      assignFeature p prompt feat = s) ∧
    (∀ feat : String, (["soil", "moist"].any (fun k => pyIn k (pyLower feat))) = false →
      (["temp", "temperature"].any (fun k => pyIn k (pyLower feat))) = true →
      assignFeature p prompt feat = t) ∧
    (∀ feat : String, (["soil", "moist"].any (fun k => pyIn k (pyLower feat))) = false →
      (["temp", "temperature"].any (fun k => pyIn k (pyLower feat))) = false →
      (["hum", "humid", "humidity"].any (fun k => pyIn k (pyLower feat))) = true →
      assignFeature p prompt feat = u) ∧
    assignFeature p prompt "soil_moisture_lag_1" = s ∧
    assignFeature p prompt "soil_temp" = s := by
  have hsoil : ∀ feat : String,
      (["soil", "moist"].any (fun k => pyIn k (pyLower feat))) = true →
      assignFeature p prompt feat = s := by
    intro feat h
    have hfk : firstKeywordKey (pyLower feat) = some "soil" := by
      unfold firstKeywordKey keywordTable
      simp only [List.find?, h]
      rfl
    simp [assignFeature, hfk, providedGet, hs]
  have htemp : ∀ feat : String,
      (["soil", "moist"].any (fun k => pyIn k (pyLower feat))) = false →
      (["temp", "temperature"].any (fun k => pyIn k (pyLower feat))) = true →
      assignFeature p prompt feat = t := by
    intro feat h1 h2
    have hfk : firstKeywordKey (pyLower feat) = some "temp" := by
      unfold firstKeywordKey keywordTable
      simp only [List.find?, h1, h2]
      rfl
    simp [assignFeature, hfk, providedGet, ht]
  have hhum : ∀ feat : String,
      (["soil", "moist"].any (fun k => pyIn k (pyLower feat))) = false →
      (["temp", "temperature"].any (fun k => pyIn k (pyLower feat))) = false →
      (["hum", "humid", "humidity"].any (fun k => pyIn k (pyLower feat))) = true →
      assignFeature p prompt feat = u := by
    intro feat h1 h2 h3
    have hfk : firstKeywordKey (pyLower feat) = some "hum" := by
      unfold firstKeywordKey keywordTable
      simp only [List.find?, h1, h2, h3]
      rfl
    simp [assignFeature, hfk, providedGet, hu]
  refine ⟨hsoil, htemp, hhum, hsoil _ (by decide), hsoil _ (by decide)⟩

theorem c5_keyword_priority_witness :
    assignFeature ⟨some 1, some 2, some 3⟩ (fun _ => 0) "soil_temp" = 1 :=
  (c5_keyword_priority ⟨some 1, some 2, some 3⟩ (fun _ => 0) 1 2 3 rfl rfl rfl).2.2.2.2



/-- C10: the exact-name fallback branch of map_inputs_to_features never
assigns: the function equals its variant with that branch removed, because
a lower-cased name equal to soil, temp or hum already matches the
corresponding keyword set. -/
theorem c10_exact_branch_unreachable (features : List String) (p : Provided)
    (prompt : String → ℚ) :
    map_inputs_to_features features p prompt
      = map_inputs_to_features_no_exact features p prompt ∧
    (∀ feat : String,
      (pyLower feat = "soil" ∨ pyLower feat = "temp" ∨ pyLower feat = "hum") →
      firstKeywordKey (pyLower feat) ≠ none) := by
  have hfeat : ∀ feat, assignFeature p prompt feat = assignFeatureNoExact p prompt feat := by
    intro feat
    simp only [assignFeature, assignFeatureNoExact]
    cases hk : firstKeywordKey (pyLower feat) with
    | some key => rfl
    | none =>
      have hfind : keywordTable.find?
          (fun kv => kv.2.any (fun k => pyIn k (pyLower feat))) = none := by
        unfold firstKeywordKey at hk
        exact Option.map_eq_none'.mp hk
      have hall := List.find?_eq_none.mp hfind
      have hsoil := hall ("soil", ["soil", "moist"]) (by simp [keywordTable])
      have htemp := hall ("temp", ["temp", "temperature"]) (by simp [keywordTable])
      have hhum := hall ("hum", ["hum", "humid", "humidity"]) (by simp [keywordTable])
      simp only [Bool.not_eq_true, List.any_eq_false, List.mem_cons, List.not_mem_nil,
        or_false, forall_eq_or_imp, forall_eq] at hsoil htemp hhum
      have h1 : (("soil" : String) == pyLower feat) = false := by
        apply beq_eq_false_iff_ne.mpr
        intro he
        rw [← he] at hsoil
        exact absurd hsoil.1 (by decide)
      have h2 : (("temp" : String) == pyLower feat) = false := by
        apply beq_eq_false_iff_ne.mpr
        intro he
        rw [← he] at htemp
        exact absurd htemp.1 (by decide)
      have h3 : (("hum" : String) == pyLower feat) = false := by
        apply beq_eq_false_iff_ne.mpr
        intro he
        rw [← he] at hhum
        exact absurd hhum.1 (by decide)
      have hex : exactMatchVal (pyLower feat) p = none := by
        simp [exactMatchVal, ne_of_beq_false h1, ne_of_beq_false h2, ne_of_beq_false h3]
      rw [hex]
  constructor
  · unfold map_inputs_to_features map_inputs_to_features_no_exact
    exact List.map_congr_left (fun feat _ => by rw [hfeat feat])
  · intro feat h
    rcases h with h | h | h <;> rw [h] <;> decide

/-- C6: with no saved feature list, the reconciled row is exactly soil,
temp, hum in that order with the supplied values, and exactly the missing
raw inputs are obtained by prompting. -/
theorem c6_no_feature_list_fallback (p : Provided) (prompt : String → ℚ) :
    (∀ a b c : ℚ, p.soil = some a → p.temp = some b → p.hum = some c →
      fallback_row p prompt = ([("soil", a), ("temp", b), ("hum", c)], [])) ∧
    ((fallback_row p prompt).2
      = (if p.soil = none then ["soil"] else []) ++ (if p.temp = none then ["temp"] else [])
          ++ (if p.hum = none then ["hum"] else [])) ∧
    (∀ a : ℚ, p.soil = some a → ((fallback_row p prompt).1.getD 0 ("", 0)).2 = a) ∧
    (∀ b : ℚ, p.temp = some b → ((fallback_row p prompt).1.getD 1 ("", 0)).2 = b) ∧
    (∀ c : ℚ, p.hum = some c → ((fallback_row p prompt).1.getD 2 ("", 0)).2 = c) ∧
    (p.soil = none → ((fallback_row p prompt).1.getD 0 ("", 0)).2 = prompt "soil") ∧
    (p.temp = none → ((fallback_row p prompt).1.getD 1 ("", 0)).2 = prompt "temp") ∧
    (p.hum = none → ((fallback_row p prompt).1.getD 2 ("", 0)).2 = prompt "hum") := by
  obtain ⟨ps, pt, pu⟩ := p
  refine ⟨?_, ?_, ?_, ?_, ?_, ?_, ?_, ?_⟩
  · intro a b c h1 h2 h3
    cases h1; cases h2; cases h3
    rfl
  · rcases ps with _ | a <;> rcases pt with _ | b <;> rcases pu with _ | c <;>
      simp [fallback_row]
  · intro a h1
    cases h1
    rcases pt with _ | b <;> rcases pu with _ | c <;> rfl
  · intro b h2
    cases h2
    rcases ps with _ | a <;> rcases pu with _ | c <;> rfl
  · intro c h3
    cases h3
    rcases ps with _ | a <;> rcases pt with _ | b <;> rfl
  · intro h1
    cases h1
    rcases pt with _ | b <;> rcases pu with _ | c <;> rfl
  · intro h2
    cases h2
    rcases ps with _ | a <;> rcases pu with _ | c <;> rfl
  · intro h3
    cases h3
    rcases ps with _ | a <;> rcases pt with _ | b <;> rfl

theorem c6_no_feature_list_fallback_witness :
    fallback_row ⟨some 1, some 2, some 3⟩ (fun _ => 0)
      = ([("soil", 1), ("temp", 2), ("hum", 3)], []) ∧
    ((fallback_row ⟨none, some 2, some 3⟩ (fun _ => 7)).1.getD 0 ("", 0)).2 = 7 :=
  ⟨(c6_no_feature_list_fallback ⟨some 1, some 2, some 3⟩ (fun _ => 0)).1 1 2 3 rfl rfl rfl,
   (c6_no_feature_list_fallback ⟨none, some 2, some 3⟩ (fun _ => 7)).2.2.2.2.2.1 rfl⟩



/-- C7 counterexample: a mapping bundle with no predict-capable value makes
load_artifact return successfully with an absent model handle; it does not
raise the ArtifactFormatError. -/
theorem c7_counterexample :
    load_artifact (.dict [("foo", ⟨false, true⟩)]) = .ok (none, none, none) := rfl

/-- C7 amended: load_artifact raises only for a non-mapping bundle without
predict capability; a mapping bundle with no truthy model/pipeline entry
and no predict-capable value instead loads with an absent model handle, and
the run then exits 1 on the absent handle in main. -/
theorem c7_artifact_error_scope (v : PyVal) (es : List (String × PyVal))
    (hv : v.hasPredict = false)
    (hes : ∀ kv ∈ es, kv.2.hasPredict = false)
    (hmp : pyOr (dictGet es "model") (pyOr (dictGet es "pipeline") none) = none) :
    load_artifact (.bare v)
      = .error "Model artifact does not contain a sklearn model or expected dict." ∧
    load_step_exit (.bare v) = some 1 ∧
    (∃ f m, load_artifact (.dict es) = .ok (none, f, m)) ∧
    load_step_exit (.dict es) = some 1 := by
  have hbare : load_artifact (.bare v)
      = .error "Model artifact does not contain a sklearn model or expected dict." := by
    simp [load_artifact, hv]
  have hfind : (es.map Prod.snd).find? (fun w => w.hasPredict) = none := by
    apply List.find?_eq_none.mpr
    intro x hx
    obtain ⟨kv, hkv, hkv2⟩ := List.mem_map.mp hx
    rw [← hkv2]
    simp [hes kv hkv]
  have hdict : load_artifact (.dict es)
      = .ok (none, pyOr (dictGet es "features") (pyOr (dictGet es "feature_names") none),
          dictGet es "metadata") := by
    simp [load_artifact, hmp, hfind]
  exact ⟨hbare, by simp [load_step_exit, hbare], ⟨_, _, hdict⟩,
    by simp [load_step_exit, hdict]⟩

theorem c7_artifact_error_scope_witness :
    load_step_exit (.bare ⟨false, true⟩) = some 1 ∧
    load_step_exit (.dict [("foo", ⟨false, true⟩)]) = some 1 :=
  ⟨(c7_artifact_error_scope ⟨false, true⟩ [("foo", ⟨false, true⟩)] rfl
      (by intro kv hkv; simp at hkv; rw [hkv]) rfl).2.1,
   (c7_artifact_error_scope ⟨false, true⟩ [("foo", ⟨false, true⟩)] rfl
      (by intro kv hkv; simp at hkv; rw [hkv]) rfl).2.2.2⟩

/-- C8: a failed prediction-store write is reported as a warning only: the
exit code stays 0 and the decision line is printed unchanged. -/
theorem c8_persistence_warning (raw : Bool) (out : ℤ) (e oid : String) :
    (report_and_persist raw out (.error e)).2 = 0 ∧
    (report_and_persist raw out (.error e)).1.getD 0 "" = decisionText raw out ∧
    (report_and_persist raw out (.error e)).1.getD 0 ""
      = (report_and_persist raw out (.ok oid)).1.getD 0 "" ∧
    ("Warning: Failed to save prediction to database: " ++ e)
      ∈ (report_and_persist raw out (.error e)).1 :=
  ⟨rfl, rfl, rfl, by simp [report_and_persist]⟩

/-- C9: the structured predict call is used when it succeeds (independently
of the flat-call outcome), the flat call is the single retry on failure,
and a double failure is fatal with both messages surfaced together. -/
theorem c9_predict_retry (y : ℤ) (e e2 : String) (pf : Except String ℤ) :
    predict_step (.ok y) pf = .ok y ∧
    predict_step (.error e) (.ok y) = .ok y ∧
    predict_step (.error e) (.error e2) = .error (e, e2) ∧
    predict_step_exit (.ok y) pf = none ∧
    predict_step_exit (.error e) (.ok y) = none ∧
    predict_step_exit (.error e) (.error e2) = some 1 :=
  ⟨rfl, rfl, rfl, rfl, rfl, rfl⟩

end Irrigation
